import Mathlib

/-!
Verification development for a rock-paper-scissors game with a
gesture-based hand detector and an adaptive computer opponent.

The definitions below are a shallow embedding of the two Python source
files `rock_paper_scissors.py` and `hand_detector.py`.  Pure game logic
becomes Lean functions; the mutable game object becomes an explicit
`GameState` record threaded through a step function.  Real-valued
features are modelled over the rationals; the only abstraction is that
the `circularity` scalar (which the source computes with pi and square
roots via external cv2 calls) is carried as an input field, since the
classifier only ever compares it against fixed thresholds.
-/

/-- The three moves; the Python code represents them as the strings
in the list `self.choices = ['rock', 'paper', 'scissors']`. -/
inductive Move where
  | rock
  | paper
  | scissors
deriving DecidableEq, Repr

/-- Round outcome; the Python code uses the strings
"user", "computer" and "tie". -/
inductive Winner where
  | user
  | computer
  | tie
deriving DecidableEq, Repr

/-- The ordered list `self.choices` used by the strategy code. -/
def choicesList : List Move := [Move.rock, Move.paper, Move.scissors]

/-- Embeds `get_winning_move_against`: the move that beats the given
move.  The Python random fallback for unknown strings is unreachable
because `Move` is a closed type. -/
def getWinningMoveAgainst : Move → Move
  | Move.rock => Move.paper
  | Move.paper => Move.scissors
  | Move.scissors => Move.rock

/-- Embeds the outcome decision in `determine_winner`: tie on equal
moves, user wins on the three listed pairs, computer wins otherwise. -/
def roundWinner (u c : Move) : Winner :=
  if u = c then Winner.tie
  else if (u = Move.rock ∧ c = Move.scissors) ∨
          (u = Move.paper ∧ c = Move.rock) ∨
          (u = Move.scissors ∧ c = Move.paper) then Winner.user
  else Winner.computer

/-- One entry of `self.game_history` (the fields the core logic reads;
timestamps and display strings are presentation data and omitted). -/
structure RoundRec where
  roundNumber : Nat
  userChoice : Move
  computerChoice : Move
  winner : Winner
  currentStreak : Nat
  streakType : Winner
deriving DecidableEq, Repr

/-- The mutable game-object fields used by the round resolver:
`self.score`, `self.rounds_played`, `self.game_history` and
`self.player_move_history`. -/
structure GameState where
  userScore : Nat
  computerScore : Nat
  roundsPlayed : Nat
  gameHistory : List RoundRec
  playerMoveHistory : List Move
deriving DecidableEq, Repr

/-- Embeds `deque(maxlen=10).append`: append on the right and drop the
oldest (leftmost) entry once the capacity of 10 is exceeded. -/
def pushMove (h : List Move) (m : Move) : List Move :=
  if h.length < 10 then h ++ [m] else h.tail ++ [m]

/-- The round record built inside `determine_winner`: streak continues
from the last history record when the winner repeats, else resets to 1;
`streak_type` is this round's winner. -/
def newRecord (s : GameState) (u c : Move) : RoundRec :=
  { roundNumber := s.roundsPlayed + 1
    userChoice := u
    computerChoice := c
    winner := roundWinner u c
    currentStreak :=
      match s.gameHistory.getLast? with
      | some lr => if lr.winner = roundWinner u c then lr.currentStreak + 1 else 1
      | none => 1
    streakType := roundWinner u c }

/-- Embeds `determine_winner` as a state step: increments
`rounds_played`, appends the user's move, updates the winning side's
score, and appends the round record to the history. -/
def determineWinner (s : GameState) (u c : Move) : GameState :=
  { userScore := if roundWinner u c = Winner.user then s.userScore + 1 else s.userScore
    computerScore := if roundWinner u c = Winner.computer then s.computerScore + 1 else s.computerScore
    roundsPlayed := s.roundsPlayed + 1
    gameHistory := s.gameHistory ++ [newRecord s u c]
    playerMoveHistory := pushMove s.playerMoveHistory u }

/-- Embeds `reset_game`: scores and round counter reset; the move
history and the game history are deliberately not touched. -/
def resetGame (s : GameState) : GameState :=
  { s with userScore := 0, computerScore := 0, roundsPlayed := 0 }

/-- The state built in `__init__`: empty histories, zero scores. -/
def initialState : GameState :=
  { userScore := 0
    computerScore := 0
    roundsPlayed := 0
    gameHistory := []
    playerMoveHistory := [] }

/-- States reachable from process start through rounds and resets. -/
inductive ReachableState : GameState → Prop where
  | init : ReachableState initialState
  | step (s : GameState) (u c : Move) :
      ReachableState s → ReachableState (determineWinner s u c)
  | reset (s : GameState) : ReachableState s → ReachableState (resetGame s)

lemma pushMove_length_le (h : List Move) (m : Move) (hle : h.length ≤ 10) :
    (pushMove h m).length ≤ 10 := by
  unfold pushMove
  by_cases hlt : h.length < 10
  · simp [hlt]; omega
  · simp [hlt]
    have : h.length ≠ 0 := by omega
    have := List.length_tail h
    omega

/-- C1 -- The round resolver declares a tie iff the moves are equal,
the player wins iff the pair is one of (rock, scissors), (paper, rock),
(scissors, paper), else the computer wins; and exactly the winner's
score counter is incremented (neither on a tie). -/
theorem roundResolver_outcome_scores (s : GameState) (u c : Move) :
    (roundWinner u c = Winner.tie ↔ u = c) ∧
    (roundWinner u c = Winner.user ↔
      ((u = Move.rock ∧ c = Move.scissors) ∨
       (u = Move.paper ∧ c = Move.rock) ∨
       (u = Move.scissors ∧ c = Move.paper))) ∧
    (roundWinner u c = Winner.computer ↔
      (u ≠ c ∧ ¬((u = Move.rock ∧ c = Move.scissors) ∨
                 (u = Move.paper ∧ c = Move.rock) ∨
                 (u = Move.scissors ∧ c = Move.paper)))) ∧
    ((determineWinner s u c).userScore =
      if roundWinner u c = Winner.user then s.userScore + 1 else s.userScore) ∧
    ((determineWinner s u c).computerScore =
      if roundWinner u c = Winner.computer then s.computerScore + 1 else s.computerScore) := by
  cases u <;> cases c <;> simp [roundWinner, determineWinner]

/-- C10 -- Every call of the round resolver, for any pair of moves
(ties included), increments the round counter by exactly 1, appends
exactly the player's move to the move history (with capacity
eviction), and appends exactly one round record to the game history. -/
theorem resolver_single_append_increment (s : GameState) (u c : Move) :
    (determineWinner s u c).roundsPlayed = s.roundsPlayed + 1 ∧
    (determineWinner s u c).gameHistory = s.gameHistory ++ [newRecord s u c] ∧
    (determineWinner s u c).gameHistory.length = s.gameHistory.length + 1 ∧
    (determineWinner s u c).playerMoveHistory = pushMove s.playerMoveHistory u ∧
    (pushMove s.playerMoveHistory u).getLast? = some u := by
  refine ⟨rfl, rfl, by simp [determineWinner], rfl, ?_⟩
  unfold pushMove
  by_cases hlt : s.playerMoveHistory.length < 10 <;> simp [hlt]

/-- C4 -- The appended record's streak is the previous record's streak
plus 1 when the previous winner repeats and 1 otherwise, its streak
type is this round's winner; and the concrete three-round match
(rock, scissors), (paper, rock), (scissors, paper) produces score 3-0
for the player with streaks [1, 2, 3] of type user. -/
theorem streak_rule_and_end_to_end (s : GameState) (u c : Move) :
    ((determineWinner s u c).gameHistory.getLast? = some (newRecord s u c)) ∧
    ((newRecord s u c).streakType = roundWinner u c) ∧
    (∀ lr, s.gameHistory.getLast? = some lr → lr.winner = roundWinner u c →
      (newRecord s u c).currentStreak = lr.currentStreak + 1) ∧
    (∀ lr, s.gameHistory.getLast? = some lr → lr.winner ≠ roundWinner u c →
      (newRecord s u c).currentStreak = 1) ∧
    (s.gameHistory.getLast? = none → (newRecord s u c).currentStreak = 1) ∧
    ((determineWinner (determineWinner (determineWinner initialState
        Move.rock Move.scissors) Move.paper Move.rock)
        Move.scissors Move.paper).userScore = 3 ∧
     (determineWinner (determineWinner (determineWinner initialState
        Move.rock Move.scissors) Move.paper Move.rock)
        Move.scissors Move.paper).computerScore = 0 ∧
     ((determineWinner (determineWinner (determineWinner initialState
        Move.rock Move.scissors) Move.paper Move.rock)
        Move.scissors Move.paper).gameHistory.map
          (fun r => r.currentStreak)) = [1, 2, 3] ∧
     ((determineWinner (determineWinner (determineWinner initialState
        Move.rock Move.scissors) Move.paper Move.rock)
        Move.scissors Move.paper).gameHistory.map
          (fun r => r.streakType)) = [Winner.user, Winner.user, Winner.user]) := by
  refine ⟨by simp [determineWinner], rfl, ?_, ?_, ?_, by decide⟩
  · intro lr hlast hw
    simp [newRecord, hlast, hw]
  · intro lr hlast hw
    simp [newRecord, hlast, hw]
  · intro hlast
    simp [newRecord, hlast]

/-- C4 witness -- The streak-continuation clause applied after one
concrete round. -/
theorem streak_rule_and_end_to_end_witness :
    (newRecord (determineWinner initialState Move.rock Move.scissors)
      Move.paper Move.rock).currentStreak =
    (newRecord initialState Move.rock Move.scissors).currentStreak + 1 := by
  exact (streak_rule_and_end_to_end (determineWinner initialState Move.rock Move.scissors)
      Move.paper Move.rock).2.2.1 (newRecord initialState Move.rock Move.scissors)
    ((streak_rule_and_end_to_end initialState Move.rock Move.scissors).1)
    (by decide)

/-- C9 -- In every reachable state the player move history holds at
most 10 moves; a push onto a full buffer evicts the oldest entry
(FIFO); resetting the game leaves it unchanged; and it is empty at
process start. -/
theorem playerHistory_capacity_fifo_reset (s : GameState)
    (hs : ReachableState s) (h : List Move) (hlen : h.length = 10) (m : Move) :
    s.playerMoveHistory.length ≤ 10 ∧
    pushMove h m = h.tail ++ [m] ∧
    (resetGame s).playerMoveHistory = s.playerMoveHistory ∧
    initialState.playerMoveHistory = [] := by
  refine ⟨?_, ?_, rfl, rfl⟩
  · induction hs with
    | init => simp [initialState]
    | step s' u c _hs ih =>
        exact pushMove_length_le s'.playerMoveHistory u ih
    | reset s' _hs ih => exact ih
  · unfold pushMove
    rw [if_neg (by omega)]

/-- C9 witness -- The invariants instantiated at the initial state and
a concrete full buffer. -/
theorem playerHistory_capacity_fifo_reset_witness :
    initialState.playerMoveHistory.length ≤ 10 ∧
    pushMove (List.replicate 10 Move.rock) Move.paper =
      (List.replicate 10 Move.rock).tail ++ [Move.paper] ∧
    (resetGame initialState).playerMoveHistory = initialState.playerMoveHistory ∧
    initialState.playerMoveHistory = [] :=
  playerHistory_capacity_fifo_reset initialState ReachableState.init
    (List.replicate 10 Move.rock) (by decide) Move.paper

/-!
Hand detector embedding (`hand_detector.py`, `get_gesture`).

A convexity defect is modelled by its three contour points as supplied
by cv2.  The source tests `angle <= 90` with
`angle = degrees(acos((b^2 + c^2 - a^2) / (2 b c)))`; since acos is
strictly decreasing and cos 90 = 0, that test is equivalent to
`b^2 + c^2 - a^2 >= 0`, and the skip guard `b * c == 0` is equivalent
to `b^2 * c^2 = 0`, so both are stated over exact squared distances of
the integer points.
-/

/-- One convexity defect: start, end and far points of the contour. -/
structure Defect where
  sPt : ℤ × ℤ
  ePt : ℤ × ℤ
  fPt : ℤ × ℤ
deriving DecidableEq, Repr

/-- Squared Euclidean distance of two integer points. -/
def sqDist (p q : ℤ × ℤ) : ℤ := (p.1 - q.1) ^ 2 + (p.2 - q.2) ^ 2

/-- A defect is a finger valley iff the far-point angle is at most 90
degrees (law of cosines over the squared side lengths); defects with a
zero side are skipped, as in the source. -/
def isValley (d : Defect) : Bool :=
  let a2 := sqDist d.ePt d.sPt
  let b2 := sqDist d.fPt d.sPt
  let c2 := sqDist d.ePt d.fPt
  if b2 * c2 = 0 then false else decide (a2 ≤ b2 + c2)

/-- Number of fingertip candidates collected in the defect loop:
one per valley defect. -/
def fingerTipsCount (od : Option (List Defect)) : Nat :=
  match od with
  | none => 0
  | some ds => (ds.filter isValley).length

/-- Embeds the raw extended-finger count: the valley count plus one
when any valley exists, else 0; 0 as well when cv2 returned no defect
array. -/
def extendedFingersRaw (od : Option (List Defect)) : Nat :=
  match od with
  | none => 0
  | some ds =>
      let v := (ds.filter isValley).length
      if 0 < v then v + 1 else 0

/-- The per-frame data `get_gesture` extracts from the contour via cv2
calls: hull point count, the defect list (cv2 may return none), the
contour and hull areas, and the circularity scalar.  Circularity is
`4 pi area / perimeter^2` in the source; the classifier only compares
it with fixed thresholds, so it is carried as the rational input
computed by that external call. -/
structure ContourData where
  hullSize : Nat
  defects : Option (List Defect)
  area : ℚ
  hullArea : ℚ
  circularity : ℚ
deriving DecidableEq

/-- Solidity as computed in the source: contour area over hull area,
0 when the hull area is not positive. -/
def solidityOf (cd : ContourData) : ℚ :=
  if 0 < cd.hullArea then cd.area / cd.hullArea else 0

/-- Embeds the push into `self.gesture_history`: append, then pop the
oldest entry once the length exceeds `history_size = 10`. -/
def pushGestureHistory (h : List Nat) (c : Nat) : List Nat :=
  if 10 < (h ++ [c]).length then (h ++ [c]).tail else h ++ [c]

/-- First-occurrence order of the distinct values of a list; models
Python dict key insertion order. -/
def firstSeen {α : Type} [DecidableEq α] (l : List α) : List α :=
  l.foldl (fun acc a => if a ∈ acc then acc else acc ++ [a]) []

/-- Embeds `max(counts, key=counts.get)` and `Counter.most_common(1)`:
the most frequent value together with its count, ties broken in favor
of the value seen first. -/
def mostCommon {α : Type} [DecidableEq α] (l : List α) : Option (α × Nat) :=
  (firstSeen l).foldl
    (fun acc a =>
      match acc with
      | none => some (a, l.count a)
      | some (b, cb) => if cb < l.count a then some (a, l.count a) else some (b, cb))
    none

/-- The smoothed finger count: majority vote over the gesture history
after pushing the raw count of the current frame. -/
def smoothedCount (hist : List Nat) (raw : Nat) : Nat :=
  match mostCommon (pushGestureHistory hist raw) with
  | some p => p.1
  | none => raw

/-- The `is_scissors` special case of the source: computed from the
raw per-frame finger count, before smoothing. -/
def isScissorsFlag (cd : ContourData) : Bool :=
  decide (extendedFingersRaw cd.defects = 2) &&
  decide (1 ≤ fingerTipsCount cd.defects) &&
  decide (cd.circularity < 7 / 10)

/-- The condition of the first (Rock) branch of the decision rule. -/
def rockBranchCond (hist : List Nat) (cd : ContourData) : Prop :=
  smoothedCount hist (extendedFingersRaw cd.defects) ≤ 1 ∨
    (cd.circularity > 7 / 10 ∧ solidityOf cd > 8 / 10)

/-- The fixed-order decision rule at the end of `get_gesture`,
evaluated with the smoothed majority count after the current frame's
raw count was pushed: Rock, Scissors, Paper, Rock fallback, first
match winning. -/
def gestureDecision (hist : List Nat) (cd : ContourData) : Move :=
  if smoothedCount hist (extendedFingersRaw cd.defects) ≤ 1 ∨
      (cd.circularity > 7 / 10 ∧ solidityOf cd > 8 / 10) then Move.rock
  else if smoothedCount hist (extendedFingersRaw cd.defects) = 2 ∨
      isScissorsFlag cd = true then Move.scissors
  else if 4 ≤ smoothedCount hist (extendedFingersRaw cd.defects) ∨
      (3 ≤ smoothedCount hist (extendedFingersRaw cd.defects) ∧
        solidityOf cd < 3 / 4) then Move.paper
  else Move.rock

/-- Embeds `get_gesture`: absent contour yields none without touching
the history; a hull with fewer than 3 points yields the rock default
without touching the history; otherwise the raw count is pushed, the
smoothed count is the history majority, and the fixed-order decision
rule picks the label. -/
def getGesture (hist : List Nat) (input : Option ContourData) :
    Option Move × List Nat :=
  match input with
  | none => (none, hist)
  | some cd =>
      if cd.hullSize < 3 then (some Move.rock, hist)
      else (some (gestureDecision hist cd),
        pushGestureHistory hist (extendedFingersRaw cd.defects))

lemma tips_of_raw_two (od : Option (List Defect))
    (h : extendedFingersRaw od = 2) : 1 ≤ fingerTipsCount od := by
  cases od with
  | none => simp [extendedFingersRaw] at h
  | some ds =>
      simp only [extendedFingersRaw, fingerTipsCount] at h ⊢
      by_cases hv : 0 < (ds.filter isValley).length
      · omega
      · rw [if_neg hv] at h
        omega

lemma isScissorsFlag_iff (cd : ContourData) :
    isScissorsFlag cd = true ↔
      (extendedFingersRaw cd.defects = 2 ∧ cd.circularity < 7 / 10) := by
  simp only [isScissorsFlag, Bool.and_eq_true, decide_eq_true_eq]
  constructor
  · rintro ⟨⟨h1, _⟩, h3⟩
    exact ⟨h1, h3⟩
  · rintro ⟨h1, h3⟩
    exact ⟨⟨h1, tips_of_raw_two cd.defects h1⟩, h3⟩

/-- A concrete valley defect: angle at the far point well below 90
degrees. -/
def valleyDefect : Defect := ⟨(0, 0), (2, 0), (1, 5)⟩

/-- A contour input with exactly one valley defect (raw finger count
2), moderate solidity and circularity 1/2. -/
def twoFingerContour : ContourData :=
  { hullSize := 5
    defects := some [valleyDefect]
    area := 50
    hullArea := 100
    circularity := 1 / 2 }

/-- C2 counterexample -- With gesture history [3, 3] the smoothed
count after the push is 3, not 2, yet the classifier returns scissors
because the special case is evaluated on the raw per-frame count 2:
the claim that the Scissors branch fires only when the smoothed count
equals 2 is false on this input. -/
theorem scissorsBranch_uses_raw_count_cex :
    (getGesture [3, 3] (some twoFingerContour)).1 = some Move.scissors ∧
    smoothedCount [3, 3] (extendedFingersRaw twoFingerContour.defects) = 3 ∧
    extendedFingersRaw twoFingerContour.defects = 2 := by
  have hraw : extendedFingersRaw twoFingerContour.defects = 2 := by decide
  have hcirc : twoFingerContour.circularity < 7 / 10 := by
    norm_num [twoFingerContour]
  have hflag : isScissorsFlag twoFingerContour = true := by
    simp only [isScissorsFlag, Bool.and_eq_true, decide_eq_true_eq]
    exact ⟨⟨hraw, by decide⟩, hcirc⟩
  have hc1 : ¬ (smoothedCount [3, 3] (extendedFingersRaw twoFingerContour.defects) ≤ 1 ∨
      (twoFingerContour.circularity > 7 / 10 ∧ solidityOf twoFingerContour > 8 / 10)) := by
    rintro (hle | ⟨hgt, _⟩)
    · rw [hraw] at hle
      exact absurd hle (by decide)
    · exact absurd hgt (by norm_num [twoFingerContour])
  refine ⟨?_, by rw [hraw]; decide, hraw⟩
  simp only [getGesture]
  rw [if_neg (by decide : ¬ twoFingerContour.hullSize < 3)]
  simp only [gestureDecision, if_neg hc1]
  rw [if_pos (Or.inr hflag)]

/-- C2 (amended) -- For any contour that passes the degenerate-hull
guard, the classifier returns scissors iff the Rock branch does not
fire and either the smoothed count equals 2 or the scissors special
case holds, where the special case is stated over the raw per-frame
count: raw count 2 and circularity below 7/10. -/
theorem scissorsBranch_characterization (hist : List Nat)
    (cd : ContourData) (hhull : 3 ≤ cd.hullSize) :
    (getGesture hist (some cd)).1 = some Move.scissors ↔
      (¬ rockBranchCond hist cd ∧
        (smoothedCount hist (extendedFingersRaw cd.defects) = 2 ∨
          (extendedFingersRaw cd.defects = 2 ∧ cd.circularity < 7 / 10))) := by
  simp only [getGesture, gestureDecision]
  rw [if_neg (by omega)]
  simp only [rockBranchCond]
  split_ifs with h1 h2 h3 <;>
    simp_all [isScissorsFlag_iff]

/-- C2 witness -- The characterization applied to a concrete
two-finger contour with empty history. -/
theorem scissorsBranch_characterization_witness :
    3 ≤ twoFingerContour.hullSize ∧
    ((getGesture [] (some twoFingerContour)).1 = some Move.scissors ↔
      (¬ rockBranchCond [] twoFingerContour ∧
        (smoothedCount [] (extendedFingersRaw twoFingerContour.defects) = 2 ∨
          (extendedFingersRaw twoFingerContour.defects = 2 ∧
            twoFingerContour.circularity < 7 / 10)))) :=
  ⟨by decide, scissorsBranch_characterization [] twoFingerContour (by decide)⟩

/-- A degenerate contour: its convex hull has only 2 points. -/
def degenerateContour : ContourData :=
  { hullSize := 2
    defects := none
    area := 0
    hullArea := 0
    circularity := 0 }

/-- C7 counterexample -- On a contour whose hull has fewer than 3
points the classifier returns the rock label, not none, so the claim
that every degenerate input yields none is false (the history is
indeed left untouched). -/
theorem degenerate_hull_returns_rock_cex :
    getGesture [] (some degenerateContour) = (some Move.rock, []) := by
  decide

/-- C7 (amended) -- An absent contour yields none and leaves the
gesture history unchanged; a contour whose hull has fewer than 3
points yields the default label rock, also leaving the history
unchanged. -/
theorem classify_absent_degenerate (hist : List Nat) (cd : ContourData) :
    getGesture hist none = (none, hist) ∧
    (cd.hullSize < 3 → getGesture hist (some cd) = (some Move.rock, hist)) := by
  refine ⟨rfl, ?_⟩
  intro hdeg
  simp [getGesture, hdeg]

/-- C7 witness -- The amended behavior at a concrete history and the
concrete degenerate contour. -/
theorem classify_absent_degenerate_witness :
    getGesture [5] none = (none, [5]) ∧
    getGesture [5] (some degenerateContour) = (some Move.rock, [5]) :=
  ⟨(classify_absent_degenerate [5] degenerateContour).1,
   (classify_absent_degenerate [5] degenerateContour).2 (by decide)⟩

/-!
Detection-window transition (the countdown to detection switch of
`run` in `rock_paper_scissors.py`).  Of the fields touched there, the
ones owned by the classifier pipeline are the per-window list
`self.detected_gestures` (cleared) and, notably, not the detector's
`self.gesture_history`, which no code outside `get_gesture` ever
writes.
-/

/-- The state shared between the game loop and the hand detector. -/
structure DetectorState where
  gestureHistory : List Nat
  detectedGestures : List Move
deriving DecidableEq, Repr

/-- Embeds the countdown to detection transition of `run`: the
per-window gesture list is cleared; the detector's history field is
not mentioned there at all. -/
def startDetectionWindow (s : DetectorState) : DetectorState :=
  { s with detectedGestures := [] }

/-- C8 counterexample -- Counts pushed during an earlier window do
influence a later window: starting a new window keeps the history
[0, 0, 0], and the same two-finger frame then smooths to majority 0
and classifies as rock, whereas with a cleared history it would
classify as scissors. -/
theorem gestureHistory_cross_window_influence_cex :
    startDetectionWindow ⟨[0, 0, 0], [Move.rock]⟩ = ⟨[0, 0, 0], []⟩ ∧
    (getGesture [0, 0, 0] (some twoFingerContour)).1 = some Move.rock ∧
    (getGesture [] (some twoFingerContour)).1 = some Move.scissors := by
  have hraw : extendedFingersRaw twoFingerContour.defects = 2 := by decide
  refine ⟨rfl, ?_, ?_⟩
  · simp only [getGesture]
    rw [if_neg (by decide : ¬ twoFingerContour.hullSize < 3)]
    simp only [gestureDecision]
    rw [if_pos (Or.inl (by rw [hraw]; decide))]
  · have hc1 : ¬ (smoothedCount [] (extendedFingersRaw twoFingerContour.defects) ≤ 1 ∨
        (twoFingerContour.circularity > 7 / 10 ∧ solidityOf twoFingerContour > 8 / 10)) := by
      rintro (hle | ⟨hgt, _⟩)
      · rw [hraw] at hle
        exact absurd hle (by decide)
      · exact absurd hgt (by norm_num [twoFingerContour])
    simp only [getGesture]
    rw [if_neg (by decide : ¬ twoFingerContour.hullSize < 3)]
    simp only [gestureDecision, if_neg hc1]
    rw [if_pos (Or.inl (by rw [hraw]; decide))]

/-- C8 (amended) -- Starting a detection window clears only the
per-window detected-gesture list; the gesture-history ring buffer
persists across windows, so earlier-window counts keep affecting the
smoothed majority until evicted by the capacity bound. -/
theorem window_start_preserves_gestureHistory (s : DetectorState) :
    (startDetectionWindow s).gestureHistory = s.gestureHistory ∧
    (startDetectionWindow s).detectedGestures = [] :=
  ⟨rfl, rfl⟩

/-!
Opponent strategy engine (`rock_paper_scissors.py`).

`random.choice` fallbacks are modelled as `none`; every other code
path of the three strategy helpers is deterministic given the
histories, so the helpers become functions into `Option Move`.
-/

/-- Python slice `l[-n:]`: the last n entries (the whole list when it
is shorter). -/
def lastN {α : Type} (n : Nat) (l : List α) : List α :=
  l.drop (l.length - n)

/-- Python `len(set(l))`: the number of distinct values. -/
def setSize {α : Type} [DecidableEq α] (l : List α) : Nat :=
  (firstSeen l).length

/-- The recency-weighted frequency of a move in `counter_strategy_choice`:
each occurrence at index i contributes 1 + 0.1 * i. -/
def moveWeightBase (hist : List Move) (m : Move) : ℚ :=
  hist.enum.foldl
    (fun acc p => if p.2 = m then acc + (1 + (1 / 10 : ℚ) * (p.1 : ℚ)) else acc) 0

/-- The full counter-strategy weight: recency-weighted frequency plus
the flat 2.0 bonus for a move used at least twice in the last 3. -/
def moveWeightFull (hist : List Move) (m : Move) : ℚ :=
  moveWeightBase hist m +
    (if 3 ≤ hist.length ∧ 2 ≤ (lastN 3 hist).count m then 2 else 0)

/-- Embeds `max(move_weights.items(), key=...)`: the first move of the
rock, paper, scissors insertion order whose weight is maximal. -/
def bestMoveByWeight (f : Move → ℚ) : Move :=
  choicesList.foldl (fun best m => if f best < f m then m else best) Move.rock

/-- Embeds `counter_strategy_choice`: random (none) below 2 entries;
with at least 5 entries, a move absent from the last 5 is countered
immediately (first absent move in rock, paper, scissors order);
otherwise the highest-weighted move is countered. -/
def counterStrategyChoice (hist : List Move) : Option Move :=
  if hist.length < 2 then none
  else if 5 ≤ hist.length then
    match choicesList.find? (fun m => decide ((lastN 5 hist).count m = 0)) with
    | some m => some (getWinningMoveAgainst m)
    | none => some (getWinningMoveAgainst (bestMoveByWeight (moveWeightFull hist)))
  else some (getWinningMoveAgainst (bestMoveByWeight (moveWeightFull hist)))

/-- C3 -- In counter mode, whenever the history has at least 5 entries
and some move is absent from the last 5, the choice short-circuits to
the counter of an absent move; when the absent move is unique, it is
exactly the counter of that move. -/
theorem counter_absent_move_shortcircuit (hist : List Move) (m : Move)
    (h5 : 5 ≤ hist.length) (hm : (lastN 5 hist).count m = 0) :
    (∃ m', (lastN 5 hist).count m' = 0 ∧
      counterStrategyChoice hist = some (getWinningMoveAgainst m')) ∧
    ((∀ m'', (lastN 5 hist).count m'' = 0 → m'' = m) →
      counterStrategyChoice hist = some (getWinningMoveAgainst m)) := by
  have hmem : m ∈ choicesList := by cases m <;> simp [choicesList]
  have hsome : (choicesList.find? (fun x => decide ((lastN 5 hist).count x = 0))).isSome := by
    rw [List.find?_isSome]
    exact ⟨m, hmem, by simpa using hm⟩
  obtain ⟨m0, hm0⟩ := Option.isSome_iff_exists.mp hsome
  have hp0 : (lastN 5 hist).count m0 = 0 := by
    simpa using List.find?_some hm0
  have hval : counterStrategyChoice hist = some (getWinningMoveAgainst m0) := by
    unfold counterStrategyChoice
    rw [if_neg (by omega), if_pos h5, hm0]
  refine ⟨⟨m0, hp0, hval⟩, ?_⟩
  intro huniq
  rw [hval, huniq m0 hp0]

/-- C3 witness -- The short-circuit on a concrete history whose last 5
entries never use scissors. -/
theorem counter_absent_move_shortcircuit_witness :
    (∃ m', (lastN 5 [Move.rock, Move.paper, Move.rock, Move.paper, Move.rock]).count m' = 0 ∧
      counterStrategyChoice [Move.rock, Move.paper, Move.rock, Move.paper, Move.rock] =
        some (getWinningMoveAgainst m')) ∧
    ((∀ m'', (lastN 5 [Move.rock, Move.paper, Move.rock, Move.paper, Move.rock]).count m'' = 0 →
        m'' = Move.scissors) →
      counterStrategyChoice [Move.rock, Move.paper, Move.rock, Move.paper, Move.rock] =
        some (getWinningMoveAgainst Move.scissors)) :=
  counter_absent_move_shortcircuit
    [Move.rock, Move.paper, Move.rock, Move.paper, Move.rock]
    Move.scissors (by decide) (by decide)

/-- Detector 1 of `pattern_based_choice`: three identical trailing
moves predict a repeat; confidence 0.7 plus 0.1 per earlier aligned
repeated 3-block (capped at 3). -/
def repeatDetector (hist : List Move) : List (Move × ℚ) :=
  if setSize (lastN 3 hist) = 1 then
    let blocks := ((List.range hist.length).filter
      (fun i => decide (i % 3 = 0) && decide (i + 3 < hist.length))).countP
      (fun i => decide (setSize ((hist.drop i).take 3) = 1))
    [((lastN 3 hist).getD 0 Move.rock, 7 / 10 + (1 / 10 : ℚ) * (min blocks 3 : Nat))]
  else []

/-- Detector 2 of `pattern_based_choice`: a 4-long alternation
predicts its first element with confidence 0.8, and nested inside the
same length guard, a 6-long 3-cycle predicts its first element with
confidence 0.85. -/
def alternationDetector (hist : List Move) : List (Move × ℚ) :=
  if 4 ≤ hist.length then
    (if (lastN 4 hist).getD 0 Move.rock = (lastN 4 hist).getD 2 Move.rock ∧
        (lastN 4 hist).getD 1 Move.rock = (lastN 4 hist).getD 3 Move.rock then
      [((lastN 4 hist).getD 0 Move.rock, 8 / 10)]
    else []) ++
    (if 6 ≤ hist.length then
      if (lastN 6 hist).getD 0 Move.rock = (lastN 6 hist).getD 3 Move.rock ∧
          (lastN 6 hist).getD 1 Move.rock = (lastN 6 hist).getD 4 Move.rock ∧
          (lastN 6 hist).getD 2 Move.rock = (lastN 6 hist).getD 5 Move.rock then
        [((lastN 6 hist).getD 0 Move.rock, 17 / 20)]
      else []
    else [])
  else []

/-- The moves that followed earlier occurrences of the current length
sl tail sequence. -/
def followersFor (hist : List Move) (sl : Nat) : List Move :=
  (List.range (hist.length - sl)).filterMap
    (fun i =>
      if (hist.drop i).take sl = lastN sl hist then (hist.drop (i + sl)).head?
      else none)

/-- Detector 3 of `pattern_based_choice` at one sequence length: the
most common follower (first seen wins ties) with confidence
min(0.9, 0.6 + (count / total) * (sl / 4)). -/
def seqDetectorAt (hist : List Move) (sl : Nat) : List (Move × ℚ) :=
  match mostCommon (followersFor hist sl) with
  | none => []
  | some (m, cnt) =>
      [(m, min (9 / 10 : ℚ)
        (6 / 10 + ((cnt : ℚ) / ((followersFor hist sl).length : ℚ)) * ((sl : ℚ) / 4)))]

/-- Detector 3 over the sequence lengths `range(2, min(5, len - 1))`. -/
def seqDetector (hist : List Move) : List (Move × ℚ) :=
  (([2, 3, 4].filter (fun sl => decide (sl < min 5 (hist.length - 1)))).map
    (seqDetectorAt hist)).flatten

/-- Detector 4 of `pattern_based_choice`: when all three moves occur
in the last 5, predict the first listed move unused in the last two,
confidence 0.6. -/
def cyclingDetector (hist : List Move) : List (Move × ℚ) :=
  if setSize (lastN 5 hist) = 3 ∧ 5 ≤ hist.length then
    match (choicesList.filter
        (fun m => decide (m ≠ hist.getLast?.getD Move.rock) &&
          decide (m ≠ (lastN 2 hist).getD 0 Move.rock))).head? with
    | some m => [(m, 6 / 10)]
    | none => []
  else []

/-- Detector 5 of `pattern_based_choice`: with at least 2 logged
rounds, if the player lost the previous round, predict the switch to
the move that beats the computer's previous move, confidence 0.65. -/
def psychDetector (gh : List RoundRec) : List (Move × ℚ) :=
  if 2 ≤ gh.length then
    match gh.getLast? with
    | some lr =>
        if lr.winner = Winner.computer then
          [(getWinningMoveAgainst lr.computerChoice, 13 / 20)]
        else []
    | none => []
  else []

/-- All predictions produced by `pattern_based_choice`, in the order
the source appends them. -/
def patternPredictions (hist : List Move) (gh : List RoundRec) : List (Move × ℚ) :=
  repeatDetector hist ++ alternationDetector hist ++ seqDetector hist ++
    cyclingDetector hist ++ psychDetector gh

/-- Embeds `confidence_scores.index(max(confidence_scores))`: the
first prediction of maximal confidence. -/
def bestPrediction (ps : List (Move × ℚ)) : Option Move :=
  (ps.foldl
    (fun acc p =>
      match acc with
      | none => some p
      | some q => if q.2 < p.2 then some p else some q)
    none).map Prod.fst

/-- Embeds `pattern_based_choice`: random (none) below 3 history
entries; otherwise counter the highest-confidence prediction, falling
back to the counter strategy when no detector fires. -/
def patternBasedChoice (hist : List Move) (gh : List RoundRec) : Option Move :=
  if hist.length < 3 then none
  else
    match bestPrediction (patternPredictions hist gh) with
    | some m => some (getWinningMoveAgainst m)
    | none => counterStrategyChoice hist

/-- C5 -- On player history [rock, rock, rock] with no logged rounds,
the 3-repeat detector is the only one that fires, its prediction is
rock with confidence exactly 0.7 (hence trivially the highest), and
the returned computer move is paper. -/
theorem pattern_rock3_prediction :
    patternPredictions [Move.rock, Move.rock, Move.rock] [] = [(Move.rock, 7 / 10)] ∧
    patternBasedChoice [Move.rock, Move.rock, Move.rock] [] = some Move.paper := by
  have hpreds : patternPredictions [Move.rock, Move.rock, Move.rock] [] =
      [(Move.rock, 7 / 10)] := by
    have h1 : repeatDetector [Move.rock, Move.rock, Move.rock] = [(Move.rock, 7 / 10)] := by
      rw [repeatDetector, if_pos (by decide)]
      norm_num
      decide
    have h2 : alternationDetector [Move.rock, Move.rock, Move.rock] = [] := by
      rw [alternationDetector, if_neg (by decide)]
    have h3 : seqDetector [Move.rock, Move.rock, Move.rock] = [] := by decide
    have h4 : cyclingDetector [Move.rock, Move.rock, Move.rock] = [] := by
      rw [cyclingDetector, if_neg (by decide)]
    have h5 : psychDetector [] = [] := by decide
    rw [patternPredictions, h1, h2, h3, h4, h5]
    simp
  refine ⟨hpreds, ?_⟩
  rw [patternBasedChoice, if_neg (by decide), hpreds]
  rfl

/-!
Adaptive mode (`get_computer_choice`).  The streak counters are
computed from the last three logged rounds only: both are set to 3
when all three winners agree with the respective side and stay 0
otherwise.  The branch structure of the adaptive path is modelled as a
function of the random draws it consumes, so that reachability of a
response block is an existential over draws.
-/

/-- Embeds the win-streak computation: 3 when the history has at least
3 rounds and the computer won all of the last 3, else 0. -/
def winStreak (gh : List RoundRec) : Nat :=
  if 3 ≤ gh.length ∧
      ((lastN 3 gh).all (fun r => decide (r.winner = Winner.computer)) = true) then 3
  else 0

/-- Embeds the loss-streak computation: 3 when the history has at
least 3 rounds and the user won all of the last 3, else 0. -/
def lossStreak (gh : List RoundRec) : Nat :=
  if 3 ≤ gh.length ∧
      ((lastN 3 gh).all (fun r => decide (r.winner = Winner.user)) = true) then 3
  else 0

/-- The `random.random()` draws consumed before a branch of the
adaptive path is selected: the difficulty gate draw and the 0.7
winning-streak draw. -/
structure Draws where
  gate : ℚ
  r1 : ℚ
deriving DecidableEq

/-- Draws a real RNG can produce: each in [0, 1). -/
def validDraws (d : Draws) : Prop :=
  0 ≤ d.gate ∧ d.gate < 1 ∧ 0 ≤ d.r1 ∧ d.r1 < 1

/-- The four top-level outcomes of the adaptive path. -/
inductive AdaptiveBranch where
  | randomFallback
  | winResp
  | lossResp
  | weighted
deriving DecidableEq, Repr

/-- Embeds the branch structure of `get_computer_choice` in adaptive
mode: random fallback below 3 stored player moves or when the gate
draw exceeds the difficulty; the winning-streak response when the win
streak is at least 2 and the 0.7 draw succeeds; the losing-streak
response when the loss streak is at least 2; otherwise the weighted
strategy mix. -/
def adaptiveBranch (gh : List RoundRec) (ph : List Move) (diff : ℚ) (d : Draws) :
    AdaptiveBranch :=
  if ph.length < 3 ∨ diff < d.gate then AdaptiveBranch.randomFallback
  else if 2 ≤ winStreak gh ∧ d.r1 < 7 / 10 then AdaptiveBranch.winResp
  else if 2 ≤ lossStreak gh then AdaptiveBranch.lossResp
  else AdaptiveBranch.weighted

/-- Some sequence of RNG draws leads to the winning-streak response. -/
def winRespReachable (gh : List RoundRec) (ph : List Move) (diff : ℚ) : Prop :=
  ∃ d, validDraws d ∧ adaptiveBranch gh ph diff d = AdaptiveBranch.winResp

/-- Some sequence of RNG draws leads to the losing-streak response. -/
def lossRespReachable (gh : List RoundRec) (ph : List Move) (diff : ℚ) : Prop :=
  ∃ d, validDraws d ∧ adaptiveBranch gh ph diff d = AdaptiveBranch.lossResp

/-- A history record carrying only a winner, for concrete histories. -/
def mkRound (w : Winner) : RoundRec :=
  { roundNumber := 0
    userChoice := Move.rock
    computerChoice := Move.rock
    winner := w
    currentStreak := 1
    streakType := w }

/-- The number of most recent rounds won consecutively by the given
side. -/
def trailingWins (w : Winner) (gh : List RoundRec) : Nat :=
  (gh.reverse.takeWhile (fun r => decide (r.winner = w))).length

lemma lastN_three_ne_nil (gh : List RoundRec) (h3 : 3 ≤ gh.length) :
    lastN 3 gh ≠ [] := by
  unfold lastN
  intro hnil
  have := List.length_drop (gh.length - 3) gh
  rw [hnil] at this
  simp at this
  omega

lemma winStreak_zero_of_lossCond (gh : List RoundRec)
    (h3 : 3 ≤ gh.length)
    (hall : (lastN 3 gh).all (fun r => decide (r.winner = Winner.user)) = true) :
    winStreak gh = 0 := by
  unfold winStreak
  rw [if_neg]
  rintro ⟨_, hallc⟩
  obtain ⟨r, hr⟩ := List.exists_mem_of_ne_nil (lastN 3 gh) (lastN_three_ne_nil gh h3)
  have hu := of_decide_eq_true (List.all_eq_true.mp hall r hr)
  have hc := of_decide_eq_true (List.all_eq_true.mp hallc r hr)
  rw [hu] at hc
  exact absurd hc (by decide)

/-- C6 counterexample -- In the history [user, computer, computer] the
computer has won the last 2 consecutive rounds, yet no RNG draw can
reach the winning-streak response, because the code only sets the win
streak when the last 3 rounds were all computer wins. -/
theorem adaptive_two_wins_unreachable_cex :
    trailingWins Winner.computer
      [mkRound Winner.user, mkRound Winner.computer, mkRound Winner.computer] = 2 ∧
    ¬ winRespReachable
      [mkRound Winner.user, mkRound Winner.computer, mkRound Winner.computer]
      [Move.rock, Move.rock, Move.rock] 1 := by
  refine ⟨by decide, ?_⟩
  rintro ⟨d, _, hd⟩
  have hw : winStreak
      [mkRound Winner.user, mkRound Winner.computer, mkRound Winner.computer] = 0 := by
    decide
  unfold adaptiveBranch at hd
  by_cases h1 : ([Move.rock, Move.rock, Move.rock].length < 3 ∨ (1 : ℚ) < d.gate)
  · rw [if_pos h1] at hd
    exact absurd hd (by decide)
  · rw [if_neg h1] at hd
    rw [if_neg (by rw [hw]; rintro ⟨hc, _⟩; omega)] at hd
    by_cases h3 : 2 ≤ lossStreak
        [mkRound Winner.user, mkRound Winner.computer, mkRound Winner.computer]
    · rw [if_pos h3] at hd
      exact absurd hd (by decide)
    · rw [if_neg h3] at hd
      exact absurd hd (by decide)

/-- C6 (amended) -- Given at least 3 stored player moves and positive
difficulty, the winning-streak response is reachable iff the history
has at least 3 rounds all won by the computer, and the losing-streak
response is reachable iff it has at least 3 rounds all won by the
user. -/
theorem adaptive_streak_reachability (gh : List RoundRec) (ph : List Move)
    (diff : ℚ) (hph : 3 ≤ ph.length) (hdiff : 0 < diff) :
    (winRespReachable gh ph diff ↔
      (3 ≤ gh.length ∧
        (lastN 3 gh).all (fun r => decide (r.winner = Winner.computer)) = true)) ∧
    (lossRespReachable gh ph diff ↔
      (3 ≤ gh.length ∧
        (lastN 3 gh).all (fun r => decide (r.winner = Winner.user)) = true)) := by
  constructor
  · constructor
    · rintro ⟨d, _, hd⟩
      unfold adaptiveBranch at hd
      by_cases h1 : (ph.length < 3 ∨ diff < d.gate)
      · rw [if_pos h1] at hd
        exact absurd hd (by decide)
      · rw [if_neg h1] at hd
        by_cases h2 : (2 ≤ winStreak gh ∧ d.r1 < 7 / 10)
        · by_contra hcond
          have hz : winStreak gh = 0 := by
            unfold winStreak
            rw [if_neg hcond]
          rw [hz] at h2
          omega
        · rw [if_neg h2] at hd
          by_cases h3 : 2 ≤ lossStreak gh
          · rw [if_pos h3] at hd
            exact absurd hd (by decide)
          · rw [if_neg h3] at hd
            exact absurd hd (by decide)
    · intro hcond
      refine ⟨⟨0, 0⟩, ⟨le_refl 0, by norm_num, le_refl 0, by norm_num⟩, ?_⟩
      unfold adaptiveBranch
      rw [if_neg (by push_neg; exact ⟨by omega, by simpa using hdiff.le⟩)]
      rw [if_pos ⟨by unfold winStreak; rw [if_pos hcond]; omega, by norm_num⟩]
  · constructor
    · rintro ⟨d, _, hd⟩
      unfold adaptiveBranch at hd
      by_cases h1 : (ph.length < 3 ∨ diff < d.gate)
      · rw [if_pos h1] at hd
        exact absurd hd (by decide)
      · rw [if_neg h1] at hd
        by_cases h2 : (2 ≤ winStreak gh ∧ d.r1 < 7 / 10)
        · rw [if_pos h2] at hd
          exact absurd hd (by decide)
        · rw [if_neg h2] at hd
          by_cases h3 : 2 ≤ lossStreak gh
          · by_contra hcond
            have hz : lossStreak gh = 0 := by
              unfold lossStreak
              rw [if_neg hcond]
            rw [hz] at h3
            omega
          · rw [if_neg h3] at hd
            exact absurd hd (by decide)
    · intro hcond
      refine ⟨⟨0, 0⟩, ⟨le_refl 0, by norm_num, le_refl 0, by norm_num⟩, ?_⟩
      unfold adaptiveBranch
      rw [if_neg (by push_neg; exact ⟨by omega, by simpa using hdiff.le⟩)]
      rw [if_neg (by
        rw [winStreak_zero_of_lossCond gh hcond.1 hcond.2]
        rintro ⟨hc, _⟩
        omega)]
      rw [if_pos (by unfold lossStreak; rw [if_pos hcond]; omega)]

/-- C6 witness -- The reachability equivalences instantiated with a
three-round all-computer history and a full-length player history at
difficulty 1. -/
theorem adaptive_streak_reachability_witness :
    (winRespReachable
        [mkRound Winner.computer, mkRound Winner.computer, mkRound Winner.computer]
        [Move.rock, Move.rock, Move.rock] 1 ↔
      (3 ≤ ([mkRound Winner.computer, mkRound Winner.computer,
          mkRound Winner.computer] : List RoundRec).length ∧
        ((lastN 3 [mkRound Winner.computer, mkRound Winner.computer,
          mkRound Winner.computer]).all
            (fun r => decide (r.winner = Winner.computer)) = true))) ∧
    (lossRespReachable
        [mkRound Winner.computer, mkRound Winner.computer, mkRound Winner.computer]
        [Move.rock, Move.rock, Move.rock] 1 ↔
      (3 ≤ ([mkRound Winner.computer, mkRound Winner.computer,
          mkRound Winner.computer] : List RoundRec).length ∧
        ((lastN 3 [mkRound Winner.computer, mkRound Winner.computer,
          mkRound Winner.computer]).all
            (fun r => decide (r.winner = Winner.user)) = true))) :=
  adaptive_streak_reachability
    [mkRound Winner.computer, mkRound Winner.computer, mkRound Winner.computer]
    [Move.rock, Move.rock, Move.rock] 1 (by decide) (by norm_num)
